import Mathlib

/-
Verification development for the MCPLink repository.

Shallow embedding of the two source files:
  * src/clients/mcp_client/client.py   — schema sanitization (clean_schema),
    tool registry translation (convert_mcp_tools_to_gemini) and the
    per-turn orchestration loop (MCPClient.process_query);
  * src/servers/terminal_server/terminal_server.py — the run_command tool.

Python dicts are modelled as ordered association lists (JsonFields), since
dict iteration order is insertion order and keys are unique; JSON values
are the mutually inductive type Json.
-/

mutual

inductive Json where
  | null : Json
  | bool (b : Bool) : Json
  | num (n : Int) : Json
  | str (s : String) : Json
  | arr (elems : JsonArr) : Json
  | obj (fields : JsonFields) : Json

inductive JsonArr where
  | nil : JsonArr
  | cons (head : Json) (tail : JsonArr) : JsonArr

inductive JsonFields where
  | nil : JsonFields
  | cons (key : String) (value : Json) (rest : JsonFields) : JsonFields

end

/-- Dict lookup: the value bound to a key in an object's field list. -/
def lookupField : JsonFields → String → Option Json
  | JsonFields.nil, _ => none
  | JsonFields.cons k v rest, key => if k = key then some v else lookupField rest key

/-- Indexing a JSON value with a string key, none when it is not an object. -/
def getField : Json → String → Option Json
  | Json.obj fields, key => lookupField fields key
  | _, _ => none

/-- Whether a JSON value is a mapping (a Python dict). -/
def Json.isObj : Json → Bool
  | Json.obj _ => true
  | _ => false

mutual

/-- client.py, clean_schema: if the schema is a dict, pop the "title" key,
then when a "properties" key is present with a dict value, replace each
property value by its recursively cleaned form; anything that is not a
dict is returned unchanged. -/
def clean_schema : Json → Json
  | Json.obj fields => Json.obj (cleanFields fields)
  | schema => schema

/-- One pass over the object's bindings: drop "title" bindings
(schema.pop), rewrite the value of "properties" bindings, keep every
other binding verbatim. -/
def cleanFields : JsonFields → JsonFields
  | JsonFields.nil => JsonFields.nil
  | JsonFields.cons k v rest =>
      if k = "title" then cleanFields rest
      else if k = "properties" then JsonFields.cons k (cleanPropertiesValue v) (cleanFields rest)
      else JsonFields.cons k v (cleanFields rest)

/-- The loop over schema["properties"] runs only when that value is a
dict (isinstance check); otherwise the value is left as it is. -/
def cleanPropertiesValue : Json → Json
  | Json.obj props => Json.obj (cleanEachProperty props)
  | v => v

/-- schema["properties"][key] = clean_schema(schema["properties"][key])
for every key, in order. -/
def cleanEachProperty : JsonFields → JsonFields
  | JsonFields.nil => JsonFields.nil
  | JsonFields.cons k v rest => JsonFields.cons k (clean_schema v) (cleanEachProperty rest)

end

mutual

/-- True when the value has no "title" binding at its root nor at any
node reachable by repeatedly indexing through "properties" maps — the
region of the tree that clean_schema actually visits. -/
def titleFreeOnPath : Json → Bool
  | Json.obj fields => titleFreeFields fields
  | _ => true

/-- Field-list form of titleFreeOnPath. -/
def titleFreeFields : JsonFields → Bool
  | JsonFields.nil => true
  | JsonFields.cons k v rest =>
      if k = "title" then false
      else if k = "properties" then titleFreeProps v && titleFreeFields rest
      else titleFreeFields rest

/-- A "properties" value is clean when, if it is a dict, each of its
property values is recursively clean. -/
def titleFreeProps : Json → Bool
  | Json.obj props => titleFreePropFields props
  | _ => true

/-- Each property value on the path is recursively title-free. -/
def titleFreePropFields : JsonFields → Bool
  | JsonFields.nil => true
  | JsonFields.cons _ v rest => titleFreeOnPath v && titleFreePropFields rest

end

/-- An MCP tool descriptor as fetched from the server: name, description
and the JSON input schema. -/
structure MCPTool where
  name : String
  description : String
  inputSchema : Json

/-- Gemini FunctionDeclaration record built in convert_mcp_tools_to_gemini. -/
structure FunctionDeclaration where
  name : String
  description : String
  parameters : Json

/-- Gemini Tool record: a singleton list of function declarations. -/
structure GeminiTool where
  function_declarations : List FunctionDeclaration

/-- client.py, convert_mcp_tools_to_gemini: one Gemini tool per MCP tool,
with parameters = clean_schema(tool.inputSchema). -/
def convert_mcp_tools_to_gemini (mcp_tools : List MCPTool) : List GeminiTool :=
  mcp_tools.map fun tool =>
    GeminiTool.mk [FunctionDeclaration.mk tool.name tool.description
      (clean_schema tool.inputSchema)]

/-- The value held by `tool.inputSchema` after convert_mcp_tools_to_gemini
has processed the tool: clean_schema mutates its argument in place
(schema.pop and item assignment on the same dict objects) and returns
that same object, so the descriptor's schema field afterwards aliases the
cleaned result. -/
def inputSchemaAfterConvert (tool : MCPTool) : Json := clean_schema tool.inputSchema

/-- The whole descriptor as it stands after translation mutated its schema. -/
def toolAfterConvert (tool : MCPTool) : MCPTool :=
  MCPTool.mk tool.name tool.description (inputSchemaAfterConvert tool)

/-- A Gemini function-call part payload: declared tool name and arguments. -/
structure GenFunctionCall where
  name : String
  args : Json

/-- A Gemini content part. `function_call` is None or a function call;
`text` is the part's text attribute, None when the part is not textual.
(Every part the SDK yields is a types.Part, so the isinstance check on
line 112 of client.py is always true and is not modelled.) -/
structure GenPart where
  function_call : Option GenFunctionCall
  text : Option String

/-- One response candidate; `parts` stands for candidate.content.parts,
with a missing or empty parts list both modelled as []. -/
structure Candidate where
  parts : List GenPart

/-- A generate_content response: zero or more candidates. -/
structure Response where
  candidates : List Candidate

/-- The tool-result payload attached to the follow-up message: client.py
builds the dict keyed "result" with the call's content on success and the
dict keyed "error" with str(e) when the call raised. -/
inductive FunctionResponse where
  | result (content : Json) : FunctionResponse
  | error (message : String) : FunctionResponse

/-- The executor bridge (client.py lines 121-125): the remote
session.call_tool either returns content (Except.ok) or raises, with the
exception's string form str(e) as the Except.error payload; the
try/except converts the two outcomes into the keyed payload. -/
def execute (callTool : String → Json → Except String Json)
    (name : String) (args : Json) : FunctionResponse :=
  match callTool name args with
  | Except.ok content => FunctionResponse.result content
  | Except.error e => FunctionResponse.error e

/-- Observable state accumulated while process_query runs: the collected
text fragments (final_text), the number of generate_content calls issued
so far, the (name, args) of each session.call_tool invocation, and the
payload of each follow-up tool message sent back to the LLM. -/
structure TurnState where
  finalText : List String
  llmCalls : Nat
  bridgeLog : List (String × Json)
  followUpLog : List FunctionResponse

/-- Reading response.candidates[0].content.parts[0] from a response:
none models the IndexError raised when the candidate list or the first
candidate's parts list is empty; otherwise the first part's text
attribute (itself an Option) is obtained. -/
def firstPartText (r : Response) : Option (Option String) :=
  match r.candidates with
  | [] => none
  | c :: _ =>
    match c.parts with
    | [] => none
    | p :: _ => some p.text

/-- One iteration of the inner part loop of process_query. The llm
oracle gives the response of the n-th generate_content call (the initial
call is call 0). For a function-call part: invoke the bridge, send the
follow-up call, then read the new response's first candidate's first
part (Boolean result true = an IndexError escaped); for any other part,
append its text attribute when present. -/
def stepPart (llm : Nat → Response) (callTool : String → Json → Except String Json)
    (st : TurnState) (part : GenPart) : TurnState × Bool :=
  match part.function_call with
  | some fc =>
      let fr := execute callTool fc.name fc.args
      let st' : TurnState :=
        TurnState.mk st.finalText (st.llmCalls + 1)
          (st.bridgeLog ++ [(fc.name, fc.args)]) (st.followUpLog ++ [fr])
      match firstPartText (llm st.llmCalls) with
      | none => (st', true)
      | some t =>
        match t with
        | some s => (TurnState.mk (st'.finalText ++ [s]) st'.llmCalls st'.bridgeLog st'.followUpLog, false)
        | none => (st', false)
  | none =>
      match part.text with
      | some s => (TurnState.mk (st.finalText ++ [s]) st.llmCalls st.bridgeLog st.followUpLog, false)
      | none => (st, false)

/-- The inner loop over one candidate's parts; stops when a step raised. -/
def runParts (llm : Nat → Response) (callTool : String → Json → Except String Json)
    (st : TurnState) : List GenPart → TurnState × Bool
  | [] => (st, false)
  | p :: ps =>
      match stepPart llm callTool st p with
      | (st', true) => (st', true)
      | (st', false) => runParts llm callTool st' ps

/-- The outer loop over response.candidates of the first response; the
guard `if candidate.content.parts` merely skips empty part lists, which
the inner loop does on its own. -/
def runCandidates (llm : Nat → Response) (callTool : String → Json → Except String Json)
    (st : TurnState) : List Candidate → TurnState × Bool
  | [] => (st, false)
  | c :: cs =>
      match runParts llm callTool st c.parts with
      | (st', true) => (st', true)
      | (st', false) => runCandidates llm callTool st' cs

/-- client.py, MCPClient.process_query, abstracted over the two external
collaborators: llm n is the response of the n-th generate_content call
and callTool is the remote session. The first component is some of the
returned string, or none when an uncaught exception escaped the loop;
the second is the observable trace. -/
def process_query (llm : Nat → Response) (callTool : String → Json → Except String Json) :
    Option String × TurnState :=
  match runCandidates llm callTool (TurnState.mk [] 1 [] []) (llm 0).candidates with
  | (st, true) => (none, st)
  | (st, false) => (some (String.intercalate "\n" st.finalText), st)

/-- Text fragments contributed by a run of parts that contain no
function call: each part's text attribute, in order, when present. -/
def textsOf : List GenPart → List String
  | [] => []
  | p :: ps => p.text.toList ++ textsOf ps

/-- textsOf summed over a list of candidates. -/
def candTexts : List Candidate → List String
  | [] => []
  | c :: cs => textsOf c.parts ++ candTexts cs

/-- Number of function-call parts in a part list. -/
def fcCountParts : List GenPart → Nat
  | [] => 0
  | p :: ps => (if p.function_call.isSome then 1 else 0) + fcCountParts ps

/-- Number of function-call parts across a candidate list. -/
def fcCountCands : List Candidate → Nat
  | [] => 0
  | c :: cs => fcCountParts c.parts + fcCountCands cs

/-- Boolean: none of these parts requests a function call. -/
def partsNoFC (ps : List GenPart) : Bool := ps.all fun p => p.function_call.isNone

/-- Boolean: no part of any of these candidates requests a function call. -/
def candsNoFC (cs : List Candidate) : Bool := cs.all fun c => partsNoFC c.parts

/-- Boolean: every candidate in the list has an empty parts list. -/
def candsEmptyParts : List Candidate → Bool
  | [] => true
  | c :: cs => c.parts.isEmpty && candsEmptyParts cs

/-- terminal_server.py: the fields of subprocess.run's CompletedProcess
that run_command reads (text mode, so the streams are strings). -/
structure CompletedProcess where
  stdout : String
  stderr : String
  returncode : Int

/-- Outcome of the subprocess.run call inside run_command's try block:
either a completed process, or an exception whose string form is kept. -/
inductive CommandOutcome where
  | completed (result : CompletedProcess) : CommandOutcome
  | raised (message : String) : CommandOutcome

/-- terminal_server.py, run_command: `result.stdout or result.stderr`
(Python `or` yields the left string unless it is empty), and the except
branch returns str(e). -/
def run_command : CommandOutcome → String
  | CommandOutcome.completed result =>
      if result.stdout = "" then result.stderr else result.stdout
  | CommandOutcome.raised e => e

/- ------------------------------------------------------------------ -/
/- Helper lemmas about clean_schema                                    -/
/- ------------------------------------------------------------------ -/

mutual

theorem titleFree_clean : ∀ s : Json, titleFreeOnPath (clean_schema s) = true
  | Json.null => rfl
  | Json.bool _ => rfl
  | Json.num _ => rfl
  | Json.str _ => rfl
  | Json.arr _ => rfl
  | Json.obj fields => by
      show titleFreeFields (cleanFields fields) = true
      exact titleFree_cleanFields fields

theorem titleFree_cleanFields : ∀ fs : JsonFields, titleFreeFields (cleanFields fs) = true
  | JsonFields.nil => rfl
  | JsonFields.cons k v rest => by
      by_cases h1 : k = "title"
      · simp [cleanFields, h1, titleFree_cleanFields rest]
      · by_cases h2 : k = "properties"
        · simp [cleanFields, titleFreeFields, h1, h2, titleFree_cleanPropsVal v,
            titleFree_cleanFields rest]
        · simp [cleanFields, titleFreeFields, h1, h2, titleFree_cleanFields rest]

theorem titleFree_cleanPropsVal : ∀ v : Json, titleFreeProps (cleanPropertiesValue v) = true
  | Json.null => rfl
  | Json.bool _ => rfl
  | Json.num _ => rfl
  | Json.str _ => rfl
  | Json.arr _ => rfl
  | Json.obj props => by
      show titleFreePropFields (cleanEachProperty props) = true
      exact titleFree_cleanEach props

theorem titleFree_cleanEach : ∀ fs : JsonFields, titleFreePropFields (cleanEachProperty fs) = true
  | JsonFields.nil => rfl
  | JsonFields.cons _ v rest => by
      simp [cleanEachProperty, titleFreePropFields, titleFree_clean v, titleFree_cleanEach rest]

end

theorem lookup_cleanFields (key : String) (hk1 : key ≠ "title") (hk2 : key ≠ "properties") :
    ∀ fs : JsonFields, lookupField (cleanFields fs) key = lookupField fs key
  | JsonFields.nil => rfl
  | JsonFields.cons k v rest => by
      by_cases h1 : k = "title"
      · subst h1
        simp [cleanFields, lookupField, Ne.symm hk1, lookup_cleanFields key hk1 hk2 rest]
      · by_cases h2 : k = "properties"
        · subst h2
          simp [cleanFields, lookupField, Ne.symm hk2, lookup_cleanFields key hk1 hk2 rest]
        · by_cases h3 : k = key
          · subst h3
            simp [cleanFields, lookupField, h1, h2]
          · simp [cleanFields, lookupField, h1, h2, h3, lookup_cleanFields key hk1 hk2 rest]

mutual

theorem clean_schema_idem : ∀ s : Json, clean_schema (clean_schema s) = clean_schema s
  | Json.null => rfl
  | Json.bool _ => rfl
  | Json.num _ => rfl
  | Json.str _ => rfl
  | Json.arr _ => rfl
  | Json.obj fields => by
      show Json.obj (cleanFields (cleanFields fields)) = Json.obj (cleanFields fields)
      rw [cleanFields_idem fields]

theorem cleanFields_idem : ∀ fs : JsonFields, cleanFields (cleanFields fs) = cleanFields fs
  | JsonFields.nil => rfl
  | JsonFields.cons k v rest => by
      by_cases h1 : k = "title"
      · simp [cleanFields, h1, cleanFields_idem rest]
      · by_cases h2 : k = "properties"
        · simp [cleanFields, h1, h2, cleanPropertiesValue_idem v, cleanFields_idem rest]
        · simp [cleanFields, h1, h2, cleanFields_idem rest]

theorem cleanPropertiesValue_idem :
    ∀ v : Json, cleanPropertiesValue (cleanPropertiesValue v) = cleanPropertiesValue v
  | Json.null => rfl
  | Json.bool _ => rfl
  | Json.num _ => rfl
  | Json.str _ => rfl
  | Json.arr _ => rfl
  | Json.obj props => by
      show Json.obj (cleanEachProperty (cleanEachProperty props)) = Json.obj (cleanEachProperty props)
      rw [cleanEach_idem props]

theorem cleanEach_idem :
    ∀ fs : JsonFields, cleanEachProperty (cleanEachProperty fs) = cleanEachProperty fs
  | JsonFields.nil => rfl
  | JsonFields.cons _ v rest => by
      simp [cleanEachProperty, clean_schema_idem v, cleanEach_idem rest]

end

/- ------------------------------------------------------------------ -/
/- Claims C5, C6, C7 — schema translation                              -/
/- ------------------------------------------------------------------ -/

/-- C5 counterexample: the claim says a "title" key at ANY nesting depth
under the "properties" map is removed. Take a schema whose only "title"
key sits under properties -> a -> items. clean_schema recurses only
through "properties" chains, so it leaves this schema completely
unchanged, and the surviving "title" binding is exhibited by the getField
chain on the translated output. -/
theorem c5_counterexample :
    clean_schema (Json.obj (JsonFields.cons "properties"
        (Json.obj (JsonFields.cons "a"
          (Json.obj (JsonFields.cons "items"
            (Json.obj (JsonFields.cons "title" (Json.str "x") JsonFields.nil))
            JsonFields.nil))
          JsonFields.nil))
        JsonFields.nil))
      = Json.obj (JsonFields.cons "properties"
        (Json.obj (JsonFields.cons "a"
          (Json.obj (JsonFields.cons "items"
            (Json.obj (JsonFields.cons "title" (Json.str "x") JsonFields.nil))
            JsonFields.nil))
          JsonFields.nil))
        JsonFields.nil)
    ∧ Option.bind (Option.bind (Option.bind
        (getField (clean_schema (Json.obj (JsonFields.cons "properties"
          (Json.obj (JsonFields.cons "a"
            (Json.obj (JsonFields.cons "items"
              (Json.obj (JsonFields.cons "title" (Json.str "x") JsonFields.nil))
              JsonFields.nil))
            JsonFields.nil))
          JsonFields.nil))) "properties")
        (fun j => getField j "a"))
        (fun j => getField j "items"))
        (fun j => getField j "title")
      = some (Json.str "x") :=
  ⟨rfl, rfl⟩

/-- C5 amended: translation removes "title" from the schema root and from
every node reachable by repeatedly indexing through "properties" maps
(the translated schema is title-free on those paths), and at each such
node every binding other than "title" and "properties" keeps its exact
original value; "title" keys nested below other combinators (such as
"items") are not removed. -/
theorem c5_amended_title_strip_on_properties_paths (s : Json) (fs : JsonFields)
    (key : String) (hk1 : key ≠ "title") (hk2 : key ≠ "properties") :
    titleFreeOnPath (clean_schema s) = true
    ∧ lookupField (cleanFields fs) key = lookupField fs key :=
  ⟨titleFree_clean s, lookup_cleanFields key hk1 hk2 fs⟩

/-- Witness for the amended C5 at a concrete schema and key. -/
theorem c5_amended_witness :
    titleFreeOnPath (clean_schema (Json.obj (JsonFields.cons "title" (Json.str "T")
        (JsonFields.cons "type" (Json.str "object") JsonFields.nil)))) = true
    ∧ lookupField (cleanFields (JsonFields.cons "title" (Json.str "T")
          (JsonFields.cons "type" (Json.str "object") JsonFields.nil))) "type"
        = lookupField (JsonFields.cons "title" (Json.str "T")
          (JsonFields.cons "type" (Json.str "object") JsonFields.nil)) "type" :=
  c5_amended_title_strip_on_properties_paths
    (Json.obj (JsonFields.cons "title" (Json.str "T")
      (JsonFields.cons "type" (Json.str "object") JsonFields.nil)))
    (JsonFields.cons "title" (Json.str "T")
      (JsonFields.cons "type" (Json.str "object") JsonFields.nil))
    "type" (by decide) (by decide)

/-- C6 counterexample: clean_schema works by in-place mutation
(schema.pop and item assignment) and returns the very dict it was given,
so after convert_mcp_tools_to_gemini runs, a descriptor whose schema had
a "title" key no longer holds its original inputSchema value. -/
theorem c6_counterexample :
    inputSchemaAfterConvert (MCPTool.mk "t" "d"
        (Json.obj (JsonFields.cons "title" (Json.str "T") JsonFields.nil)))
      ≠ Json.obj (JsonFields.cons "title" (Json.str "T") JsonFields.nil) := by
  intro h
  exact Bool.noConfusion
    (congrArg (fun j => (getField j "title").isSome) h : false = true)

/-- C6 amended: translation is deterministic and idempotent — running
convert_mcp_tools_to_gemini on the descriptors exactly as it leaves them
(their inputSchema mutated in place to the sanitized value) produces the
same declarations as the first run — but it is not mutation-free: the
descriptor's original inputSchema value is replaced by the sanitized
schema, so it is unchanged only when no "title" key was stripped. -/
theorem c6_amended_stable_under_own_mutation (tools : List MCPTool) :
    convert_mcp_tools_to_gemini (tools.map toolAfterConvert)
      = convert_mcp_tools_to_gemini tools := by
  induction tools with
  | nil => rfl
  | cons t ts ih =>
      simp [convert_mcp_tools_to_gemini, toolAfterConvert, inputSchemaAfterConvert,
        clean_schema_idem] at ih ⊢

/-- C7: a schema that is not a mapping is returned unchanged (and the
sanitizer, being a total function, cannot raise). -/
theorem c7_non_mapping_schema_unchanged (s : Json) (h : Json.isObj s = false) :
    clean_schema s = s := by
  cases s with
  | obj fields => simp [Json.isObj] at h
  | null => rfl
  | bool b => rfl
  | num n => rfl
  | str s => rfl
  | arr a => rfl

/-- Witness for C7 at a concrete non-mapping schema. -/
theorem c7_witness : clean_schema (Json.num 3) = Json.num 3 :=
  c7_non_mapping_schema_unchanged (Json.num 3) rfl

/- ------------------------------------------------------------------ -/
/- Claims C8, C9 — the run_command tool                                -/
/- ------------------------------------------------------------------ -/

/-- C8: run_command returns the captured stdout, falls back to the
captured stderr when stdout is empty, and never raises outward — an
exception during execution is returned as its string form. -/
theorem c8_run_command_output (result : CompletedProcess) (e : String) :
    (result.stdout ≠ "" → run_command (CommandOutcome.completed result) = result.stdout)
    ∧ (result.stdout = "" → run_command (CommandOutcome.completed result) = result.stderr)
    ∧ run_command (CommandOutcome.raised e) = e := by
  refine ⟨fun h => ?_, fun h => ?_, rfl⟩ <;> simp [run_command, h]

/-- Witness for C8 at concrete commands. -/
theorem c8_witness :
    run_command (CommandOutcome.completed (CompletedProcess.mk "out" "err" 0)) = "out"
    ∧ run_command (CommandOutcome.completed (CompletedProcess.mk "" "err" 1)) = "err"
    ∧ run_command (CommandOutcome.raised "boom") = "boom" :=
  ⟨(c8_run_command_output (CompletedProcess.mk "out" "err" 0) "boom").1 (by decide),
   (c8_run_command_output (CompletedProcess.mk "" "err" 1) "boom").2.1 rfl,
   (c8_run_command_output (CompletedProcess.mk "" "err" 1) "boom").2.2⟩

/-- C9: the result of run_command depends only on the captured stdout and
stderr, never on the exit status — the same streams with different return
codes give identical results — and a command with empty output on both
streams returns the empty string. -/
theorem c9_exit_status_ignored (out err : String) (code1 code2 : Int) :
    run_command (CommandOutcome.completed (CompletedProcess.mk out err code1))
      = run_command (CommandOutcome.completed (CompletedProcess.mk out err code2))
    ∧ run_command (CommandOutcome.completed (CompletedProcess.mk "" "" code1)) = "" :=
  ⟨rfl, rfl⟩

/- ------------------------------------------------------------------ -/
/- Helper lemmas about the orchestration loop                          -/
/- ------------------------------------------------------------------ -/

theorem stepPart_noFC (llm : Nat → Response) (ct : String → Json → Except String Json)
    (st : TurnState) (p : GenPart) (hp : p.function_call = none) :
    stepPart llm ct st p
      = (TurnState.mk (st.finalText ++ p.text.toList) st.llmCalls st.bridgeLog st.followUpLog,
         false) := by
  cases ht : p.text <;> simp [stepPart, hp, ht, Option.toList]

theorem stepPart_fc_read (llm : Nat → Response) (ct : String → Json → Except String Json)
    (st : TurnState) (p : GenPart) (fc : GenFunctionCall) (topt : Option String)
    (hp : p.function_call = some fc)
    (hr : firstPartText (llm st.llmCalls) = some topt) :
    stepPart llm ct st p
      = (TurnState.mk (st.finalText ++ topt.toList) (st.llmCalls + 1)
          (st.bridgeLog ++ [(fc.name, fc.args)])
          (st.followUpLog ++ [execute ct fc.name fc.args]), false) := by
  cases topt <;> simp [stepPart, hp, hr, Option.toList]

theorem stepPart_fc_crash (llm : Nat → Response) (ct : String → Json → Except String Json)
    (st : TurnState) (p : GenPart) (fc : GenFunctionCall)
    (hp : p.function_call = some fc)
    (hr : firstPartText (llm st.llmCalls) = none) :
    stepPart llm ct st p
      = (TurnState.mk st.finalText (st.llmCalls + 1)
          (st.bridgeLog ++ [(fc.name, fc.args)])
          (st.followUpLog ++ [execute ct fc.name fc.args]), true) := by
  simp [stepPart, hp, hr]

theorem stepPart_calls (llm : Nat → Response) (ct : String → Json → Except String Json)
    (st : TurnState) (p : GenPart) :
    ((stepPart llm ct st p).1).llmCalls
      = st.llmCalls + (if p.function_call.isSome then 1 else 0) := by
  cases hp : p.function_call with
  | none => cases ht : p.text <;> simp [stepPart, hp, ht]
  | some fc =>
      cases hr : firstPartText (llm st.llmCalls) with
      | none => simp [stepPart, hp, hr]
      | some t => cases t <;> simp [stepPart, hp, hr]

theorem runParts_cons_ok (llm : Nat → Response) (ct : String → Json → Except String Json)
    (st st' : TurnState) (p : GenPart) (ps : List GenPart)
    (h : stepPart llm ct st p = (st', false)) :
    runParts llm ct st (p :: ps) = runParts llm ct st' ps := by
  simp [runParts, h]

theorem runParts_cons_crash (llm : Nat → Response) (ct : String → Json → Except String Json)
    (st st' : TurnState) (p : GenPart) (ps : List GenPart)
    (h : stepPart llm ct st p = (st', true)) :
    runParts llm ct st (p :: ps) = (st', true) := by
  simp [runParts, h]

theorem runParts_append_ok (llm : Nat → Response) (ct : String → Json → Except String Json) :
    ∀ (ps : List GenPart) (st st' : TurnState),
      runParts llm ct st ps = (st', false) →
      ∀ qs : List GenPart, runParts llm ct st (ps ++ qs) = runParts llm ct st' qs := by
  intro ps
  induction ps with
  | nil =>
      intro st st' h qs
      simp [runParts] at h
      rw [List.nil_append, h]
  | cons p ps ih =>
      intro st st' h qs
      rcases hsp : stepPart llm ct st p with ⟨stm, b⟩
      cases b with
      | false =>
          rw [runParts_cons_ok llm ct st stm p ps hsp] at h
          rw [List.cons_append, runParts_cons_ok llm ct st stm p (ps ++ qs) hsp]
          exact ih stm st' h qs
      | true =>
          rw [runParts_cons_crash llm ct st stm p ps hsp] at h
          simp at h

theorem runParts_noFC (llm : Nat → Response) (ct : String → Json → Except String Json) :
    ∀ (ps : List GenPart) (st : TurnState), partsNoFC ps = true →
      runParts llm ct st ps
        = (TurnState.mk (st.finalText ++ textsOf ps) st.llmCalls st.bridgeLog st.followUpLog,
           false) := by
  intro ps
  induction ps with
  | nil => intro st h; simp [runParts, textsOf]
  | cons p ps ih =>
      intro st h
      simp [partsNoFC, List.all_cons] at h
      obtain ⟨h1, h2⟩ := h
      rw [runParts_cons_ok llm ct st _ p ps (stepPart_noFC llm ct st p h1)]
      rw [ih _ (by simpa [partsNoFC] using h2)]
      simp [textsOf, List.append_assoc]

theorem runParts_calls_le (llm : Nat → Response) (ct : String → Json → Except String Json) :
    ∀ (ps : List GenPart) (st : TurnState),
      ((runParts llm ct st ps).1).llmCalls ≤ st.llmCalls + fcCountParts ps := by
  intro ps
  induction ps with
  | nil => intro st; simp [runParts, fcCountParts]
  | cons p ps ih =>
      intro st
      have hc := stepPart_calls llm ct st p
      rcases hsp : stepPart llm ct st p with ⟨stm, b⟩
      rw [hsp] at hc
      simp only at hc
      cases b with
      | false =>
          rw [runParts_cons_ok llm ct st stm p ps hsp]
          have := ih stm
          simp [fcCountParts]
          omega
      | true =>
          rw [runParts_cons_crash llm ct st stm p ps hsp]
          simp [fcCountParts]
          omega

theorem runCandidates_cons_ok (llm : Nat → Response) (ct : String → Json → Except String Json)
    (st st' : TurnState) (c : Candidate) (cs : List Candidate)
    (h : runParts llm ct st c.parts = (st', false)) :
    runCandidates llm ct st (c :: cs) = runCandidates llm ct st' cs := by
  simp [runCandidates, h]

theorem runCandidates_cons_crash (llm : Nat → Response) (ct : String → Json → Except String Json)
    (st st' : TurnState) (c : Candidate) (cs : List Candidate)
    (h : runParts llm ct st c.parts = (st', true)) :
    runCandidates llm ct st (c :: cs) = (st', true) := by
  simp [runCandidates, h]

theorem runCandidates_append_ok (llm : Nat → Response) (ct : String → Json → Except String Json) :
    ∀ (cs : List Candidate) (st st' : TurnState),
      runCandidates llm ct st cs = (st', false) →
      ∀ ds : List Candidate, runCandidates llm ct st (cs ++ ds) = runCandidates llm ct st' ds := by
  intro cs
  induction cs with
  | nil =>
      intro st st' h ds
      simp [runCandidates] at h
      rw [List.nil_append, h]
  | cons c cs ih =>
      intro st st' h ds
      rcases hrp : runParts llm ct st c.parts with ⟨stm, b⟩
      cases b with
      | false =>
          rw [runCandidates_cons_ok llm ct st stm c cs hrp] at h
          rw [List.cons_append, runCandidates_cons_ok llm ct st stm c (cs ++ ds) hrp]
          exact ih stm st' h ds
      | true =>
          rw [runCandidates_cons_crash llm ct st stm c cs hrp] at h
          simp at h

theorem runCandidates_noFC (llm : Nat → Response) (ct : String → Json → Except String Json) :
    ∀ (cs : List Candidate) (st : TurnState), candsNoFC cs = true →
      runCandidates llm ct st cs
        = (TurnState.mk (st.finalText ++ candTexts cs) st.llmCalls st.bridgeLog st.followUpLog,
           false) := by
  intro cs
  induction cs with
  | nil => intro st h; simp [runCandidates, candTexts]
  | cons c cs ih =>
      intro st h
      simp [candsNoFC, List.all_cons] at h
      obtain ⟨h1, h2⟩ := h
      have h1' : partsNoFC c.parts = true := by simpa [partsNoFC] using h1
      rw [runCandidates_cons_ok llm ct st _ c cs (runParts_noFC llm ct c.parts st h1')]
      rw [ih _ (by simpa [candsNoFC] using h2)]
      simp [candTexts, List.append_assoc]

theorem runCandidates_emptyParts (llm : Nat → Response) (ct : String → Json → Except String Json) :
    ∀ (cs : List Candidate) (st : TurnState), candsEmptyParts cs = true →
      runCandidates llm ct st cs = (st, false) := by
  intro cs
  induction cs with
  | nil => intro st h; simp [runCandidates]
  | cons c cs ih =>
      intro st h
      simp [candsEmptyParts] at h
      obtain ⟨h1, h2⟩ := h
      have hp : runParts llm ct st c.parts = (st, false) := by
        rw [h1]; simp [runParts]
      rw [runCandidates_cons_ok llm ct st st c cs hp]
      exact ih st h2

theorem runCandidates_calls_le (llm : Nat → Response) (ct : String → Json → Except String Json) :
    ∀ (cs : List Candidate) (st : TurnState),
      ((runCandidates llm ct st cs).1).llmCalls ≤ st.llmCalls + fcCountCands cs := by
  intro cs
  induction cs with
  | nil => intro st; simp [runCandidates, fcCountCands]
  | cons c cs ih =>
      intro st
      have hc := runParts_calls_le llm ct c.parts st
      rcases hrp : runParts llm ct st c.parts with ⟨stm, b⟩
      rw [hrp] at hc
      simp only at hc
      cases b with
      | false =>
          rw [runCandidates_cons_ok llm ct st stm c cs hrp]
          have := ih stm
          simp [fcCountCands]
          omega
      | true =>
          rw [runCandidates_cons_crash llm ct st stm c cs hrp]
          simp [fcCountCands]
          omega

theorem process_query_some (llm : Nat → Response) (ct : String → Json → Except String Json)
    (r : String) (st : TurnState)
    (h : process_query llm ct = (some r, st)) :
    r = String.intercalate "\n" st.finalText := by
  unfold process_query at h
  rcases hrc : runCandidates llm ct (TurnState.mk [] 1 [] []) (llm 0).candidates with ⟨st2, b⟩
  rw [hrc] at h
  cases b with
  | true => simp at h
  | false =>
      simp at h
      obtain ⟨h1, h2⟩ := h
      rw [← h2, ← h1]

theorem runParts_one_fc (llm : Nat → Response) (ct : String → Json → Except String Json)
    (pre post : List GenPart) (p : GenPart) (fc : GenFunctionCall) (topt : Option String)
    (st : TurnState)
    (h2 : p.function_call = some fc)
    (h5 : partsNoFC pre = true) (h6 : partsNoFC post = true)
    (h7 : firstPartText (llm st.llmCalls) = some topt) :
    runParts llm ct st (pre ++ p :: post)
      = (TurnState.mk (st.finalText ++ (textsOf pre ++ (topt.toList ++ textsOf post)))
          (st.llmCalls + 1) (st.bridgeLog ++ [(fc.name, fc.args)])
          (st.followUpLog ++ [execute ct fc.name fc.args]), false) := by
  rw [runParts_append_ok llm ct pre st _ (runParts_noFC llm ct pre st h5) (p :: post)]
  rw [runParts_cons_ok llm ct
    (TurnState.mk (st.finalText ++ textsOf pre) st.llmCalls st.bridgeLog st.followUpLog) _ p post
    (stepPart_fc_read llm ct
      (TurnState.mk (st.finalText ++ textsOf pre) st.llmCalls st.bridgeLog st.followUpLog)
      p fc topt h2 h7)]
  rw [runParts_noFC llm ct post _ h6]
  simp [List.append_assoc]

/- ------------------------------------------------------------------ -/
/- Claims C1, C2, C3, C4, C10 — the orchestration loop                 -/
/- ------------------------------------------------------------------ -/

/-- C1: when the remote tool invocation raises an exception with string
form e, the bridge catches it: the follow-up message carries exactly the
payload keyed "error" with message e (on success it would carry the
payload keyed "result"), the follow-up LLM call is still issued, and
whether the step itself raises depends only on reading the follow-up
response (an empty candidate or part list), never on the tool outcome —
the tool exception is not propagated. -/
theorem c1_tool_exception_contained (llm : Nat → Response)
    (ct : String → Json → Except String Json) (st : TurnState)
    (p : GenPart) (fc : GenFunctionCall) (e : String)
    (hp : p.function_call = some fc)
    (he : ct fc.name fc.args = Except.error e) :
    ((stepPart llm ct st p).1).followUpLog = st.followUpLog ++ [FunctionResponse.error e]
    ∧ ((stepPart llm ct st p).1).llmCalls = st.llmCalls + 1
    ∧ (stepPart llm ct st p).2 = (firstPartText (llm st.llmCalls)).isNone := by
  cases hr : firstPartText (llm st.llmCalls) with
  | none => simp [stepPart, hp, execute, he, hr]
  | some t => cases t <;> simp [stepPart, hp, execute, he, hr]

/-- Witness for C1: a concrete failing tool call. -/
theorem c1_witness :
    ((stepPart (fun _ => Response.mk [Candidate.mk [GenPart.mk none (some "ok")]])
        (fun _ _ => Except.error "boom") (TurnState.mk [] 1 [] [])
        (GenPart.mk (some (GenFunctionCall.mk "run_command" Json.null)) none)).1).followUpLog
      = [FunctionResponse.error "boom"]
    ∧ ((stepPart (fun _ => Response.mk [Candidate.mk [GenPart.mk none (some "ok")]])
        (fun _ _ => Except.error "boom") (TurnState.mk [] 1 [] [])
        (GenPart.mk (some (GenFunctionCall.mk "run_command" Json.null)) none)).1).llmCalls = 2
    ∧ (stepPart (fun _ => Response.mk [Candidate.mk [GenPart.mk none (some "ok")]])
        (fun _ _ => Except.error "boom") (TurnState.mk [] 1 [] [])
        (GenPart.mk (some (GenFunctionCall.mk "run_command" Json.null)) none)).2 = false :=
  c1_tool_exception_contained
    (fun _ => Response.mk [Candidate.mk [GenPart.mk none (some "ok")]])
    (fun _ _ => Except.error "boom") (TurnState.mk [] 1 [] [])
    (GenPart.mk (some (GenFunctionCall.mk "run_command" Json.null)) none)
    (GenFunctionCall.mk "run_command" Json.null) "boom" rfl rfl

/-- C2 counterexample: a first response carrying two function-call parts
makes process_query issue three generate_content calls — the claimed
"at most two LLM calls regardless of how many function-call parts"
fails, because the loop issues one follow-up call per function-call part
of the first response. -/
theorem c2_counterexample :
    ((process_query
      (fun n => match n with
        | 0 => Response.mk [Candidate.mk
            [GenPart.mk (some (GenFunctionCall.mk "run_command" Json.null)) none,
             GenPart.mk (some (GenFunctionCall.mk "run_command" Json.null)) none]]
        | _ + 1 => Response.mk [Candidate.mk [GenPart.mk none (some "ok")]])
      (fun _ _ => Except.ok Json.null)).2).llmCalls = 3 := rfl

/-- C2 amended: a turn issues at most 1 + k LLM calls, where k is the
number of function-call parts across the candidates of the first
response; so "at most two" holds exactly when the first response carries
at most one function-call part, each further function-call part of the
first response triggering one further call. The bound depends only on
the first response: responses obtained by follow-up calls are never
scanned, so the second response requesting a tool never causes a third
call by itself. -/
theorem c2_amended_call_bound (llm : Nat → Response)
    (ct : String → Json → Except String Json) :
    ((process_query llm ct).2).llmCalls ≤ 1 + fcCountCands (llm 0).candidates := by
  have h := runCandidates_calls_le llm ct (llm 0).candidates (TurnState.mk [] 1 [] [])
  rcases hrc : runCandidates llm ct (TurnState.mk [] 1 [] []) (llm 0).candidates with ⟨st2, b⟩
  rw [hrc] at h
  unfold process_query
  rw [hrc]
  cases b <;> simpa using h

/-- C3 counterexample: first response = one function-call part, and the
follow-up response has no candidates. No text fragment is ever
collected, yet the turn does not return normally with the empty string:
reading response.candidates[0] raises an IndexError (the none result),
after the tool call succeeded and the second LLM call was issued. -/
theorem c3_counterexample :
    process_query
      (fun n => match n with
        | 0 => Response.mk [Candidate.mk
            [GenPart.mk (some (GenFunctionCall.mk "run_command" Json.null)) none]]
        | _ + 1 => Response.mk [])
      (fun _ _ => Except.ok Json.null)
    = (none, TurnState.mk [] 2 [("run_command", Json.null)]
        [FunctionResponse.result Json.null]) := rfl

/-- C3 amended: for every turn that completes without an uncaught
exception (the indexing of each follow-up response succeeded), if no
text fragment was collected then process_query returns the empty string
rather than signalling an error. -/
theorem c3_amended_no_text_empty_string (llm : Nat → Response)
    (ct : String → Json → Except String Json) (r : String) (st : TurnState)
    (hok : process_query llm ct = (some r, st))
    (hempty : st.finalText = []) : r = "" := by
  have h := process_query_some llm ct r st hok
  rw [hempty] at h
  exact h.trans rfl

/-- Witness for the amended C3: a first response with no candidates. -/
theorem c3_witness :
    process_query (fun _ => Response.mk []) (fun _ _ => Except.ok Json.null)
      = (some "", TurnState.mk [] 1 [] [])
    ∧ ("" : String) = "" :=
  ⟨rfl, c3_amended_no_text_empty_string (fun _ => Response.mk [])
      (fun _ _ => Except.ok Json.null) "" (TurnState.mk [] 1 [] []) rfl rfl⟩

/-- C4 counterexample: the first response contains exactly one
function-call request but also a text part "hi". The turn issues two LLM
calls and one bridge call as claimed, yet the answer is "hi" joined with
the second response's text — the appended text is NOT drawn only from
the second response. -/
theorem c4_counterexample :
    process_query
      (fun n => match n with
        | 0 => Response.mk [Candidate.mk
            [GenPart.mk none (some "hi"),
             GenPart.mk (some (GenFunctionCall.mk "run_command" Json.null)) none]]
        | _ + 1 => Response.mk [Candidate.mk [GenPart.mk none (some "ans")]])
      (fun _ _ => Except.ok Json.null)
    = (some "hi\nans", TurnState.mk ["hi", "ans"] 2 [("run_command", Json.null)]
        [FunctionResponse.result Json.null])
    ∧ ("hi\nans" : String) ≠ "ans" :=
  ⟨rfl, by decide⟩

/-- C4 amended: for a first response containing exactly one function-call
part (and whose follow-up response has a first candidate with a first
part), the turn issues exactly two LLM calls and invokes the bridge
exactly once with that request's declared name and arguments; the
function-call exchange contributes exactly the text of the second
response's first part (nothing when that part is not textual) — not the
first textual part at a later position — and the first response's own
text parts are also appended, in order, around that contribution, so the
answer is not drawn only from the second response. -/
theorem c4_amended_single_function_call (llm : Nat → Response)
    (ct : String → Json → Except String Json)
    (cs1 cs2 : List Candidate) (c : Candidate) (pre post : List GenPart)
    (p : GenPart) (fc : GenFunctionCall) (topt : Option String)
    (h0 : (llm 0).candidates = cs1 ++ c :: cs2)
    (h1 : c.parts = pre ++ p :: post)
    (h2 : p.function_call = some fc)
    (h3 : candsNoFC cs1 = true) (h4 : candsNoFC cs2 = true)
    (h5 : partsNoFC pre = true) (h6 : partsNoFC post = true)
    (h7 : firstPartText (llm 1) = some topt) :
    process_query llm ct
      = (some (String.intercalate "\n"
          (candTexts cs1 ++ (textsOf pre ++ (topt.toList ++ (textsOf post ++ candTexts cs2))))),
         TurnState.mk
           (candTexts cs1 ++ (textsOf pre ++ (topt.toList ++ (textsOf post ++ candTexts cs2))))
           2 [(fc.name, fc.args)] [execute ct fc.name fc.args]) := by
  unfold process_query
  rw [h0]
  rw [runCandidates_append_ok llm ct cs1 _ _
    (runCandidates_noFC llm ct cs1 (TurnState.mk [] 1 [] []) h3) (c :: cs2)]
  rw [runCandidates_cons_ok llm ct _ _ c cs2
    (by rw [h1]; exact runParts_one_fc llm ct pre post p fc topt _ h2 h5 h6 h7)]
  rw [runCandidates_noFC llm ct cs2 _ h4]
  simp [List.append_assoc]

/-- Witness for the amended C4 at a concrete turn. -/
theorem c4_amended_witness :
    process_query
      (fun n => match n with
        | 0 => Response.mk [Candidate.mk
            [GenPart.mk none (some "hi"),
             GenPart.mk (some (GenFunctionCall.mk "list_files" Json.null)) none]]
        | _ + 1 => Response.mk [Candidate.mk [GenPart.mk none (some "ans")]])
      (fun _ _ => Except.ok Json.null)
      = (some (String.intercalate "\n"
          (candTexts [] ++ (textsOf [GenPart.mk none (some "hi")]
            ++ ((some "ans" : Option String).toList ++ (textsOf [] ++ candTexts []))))),
         TurnState.mk
           (candTexts [] ++ (textsOf [GenPart.mk none (some "hi")]
            ++ ((some "ans" : Option String).toList ++ (textsOf [] ++ candTexts []))))
           2 [("list_files", Json.null)]
           [execute (fun _ _ => Except.ok Json.null) "list_files" Json.null]) :=
  c4_amended_single_function_call
    (fun n => match n with
      | 0 => Response.mk [Candidate.mk
          [GenPart.mk none (some "hi"),
           GenPart.mk (some (GenFunctionCall.mk "list_files" Json.null)) none]]
      | _ + 1 => Response.mk [Candidate.mk [GenPart.mk none (some "ans")]])
    (fun _ _ => Except.ok Json.null)
    [] [] (Candidate.mk
      [GenPart.mk none (some "hi"),
       GenPart.mk (some (GenFunctionCall.mk "list_files" Json.null)) none])
    [GenPart.mk none (some "hi")] []
    (GenPart.mk (some (GenFunctionCall.mk "list_files" Json.null)) none)
    (GenFunctionCall.mk "list_files" Json.null) (some "ans")
    rfl rfl rfl rfl rfl rfl rfl rfl

/-- C10: when the first response has zero candidates or only candidates
with empty parts lists, the turn returns the empty string after exactly
one LLM call, with no tool invocation and no second LLM call. -/
theorem c10_empty_first_response (llm : Nat → Response)
    (ct : String → Json → Except String Json)
    (h : candsEmptyParts (llm 0).candidates = true) :
    process_query llm ct = (some "", TurnState.mk [] 1 [] []) := by
  unfold process_query
  rw [runCandidates_emptyParts llm ct (llm 0).candidates (TurnState.mk [] 1 [] []) h]
  rfl

/-- Witness for C10: one candidate with an empty parts list (the tool
oracle would fail if it were ever consulted — it is not). -/
theorem c10_witness :
    process_query (fun _ => Response.mk [Candidate.mk []])
      (fun _ _ => Except.error "down")
      = (some "", TurnState.mk [] 1 [] []) :=
  c10_empty_first_response (fun _ => Response.mk [Candidate.mk []])
    (fun _ _ => Except.error "down") rfl
